import Mathlib

/-!
Verification development for the ADS-B tracker (`ADSB_110725.py`).

The file shallowly embeds the stateful core of the program — the method
`AdsbTracker.fetch_aircraft_data` (source lines 435-544), together with the
groundspeed plot filters of `update_scatter_gs_plot` (line 989) and
`update_hist_gs_plot` (line 1031) — and proves properties of the embedding.

Modelling decisions, all driven by the Python semantics of the source:
* JSON values delivered by `response.json()` are numbers (ints/floats/bools),
  strings, `null`, or unhashable containers (lists/objects); rationals stand
  in for Python floats (no claim depends on rounding).
* A record field is `Option JVal`: `none` is an absent key, `some .jnull` is a
  key explicitly bound to `null` (Python's `dict.get` distinguishes the two
  only when a default argument is supplied).
* Exceptions are explicit: every partial operation returns `Except PyErr`,
  and `PyErr` distinguishes `ValueError` (the only class the source catches
  per-record) from other exception classes.
* External effects are a parameter `Ext`: the configured receiver coordinate,
  the haversine great-circle distance (its numeric value is opaque, but its
  raising behaviour is modelled), and the successive results of
  `str(time.time())`, which the source uses as a fallback dictionary key.
-/

namespace ADSB

/-- Python exception classes, distinguished only as far as the source's
`except` clauses distinguish them: the per-record code catches exactly
`ValueError`; everything else propagates to the blanket handler that aborts
the cycle. -/
inductive PyErr
  | valueError
  | typeError
  | attributeError
deriving DecidableEq

/-- A JSON value as produced by `response.json()`.  `junhash` stands for any
unhashable container (list or object): such a value raises `TypeError` both
under `float()` and when used as a dictionary key, which is all the source
ever does with one. -/
inductive JVal
  | jnum (q : ℚ)
  | jstr (s : String)
  | jnull
  | junhash
deriving DecidableEq

/-- External collaborators and configuration of one tracker instance:
the receiver coordinate (configuration constants `RECEIVER_LAT/LON`), the
great-circle distance in miles computed by the `haversine` library on valid
coordinates (its numeric value is opaque to every claim), and the stream of
successive results of `str(time.time())` (consecutive readings of the wall
clock may coincide, so an arbitrary stream is the faithful model). -/
structure Ext where
  receiverLat : ℚ
  receiverLon : ℚ
  hav : ℚ → ℚ → ℚ
  clockStr : ℕ → String

/-- Configuration constant `MAX_TRACK_POINTS` (source line 57). -/
def MAX_TRACK_POINTS : ℕ := 10

/-- Result of `dict.get(k)` as consumed by the source's `is None` tests: a
missing key and an explicit `null` are indistinguishable there. -/
def jGet : Option JVal → Option JVal
  | some .jnull => none
  | v => v

/-- Surrounding-whitespace removal on a character list, the semantics of
Python's `str.strip()` (and of the whitespace tolerance of `float(str)`). -/
def stripChars (cs : List Char) : List Char :=
  ((cs.dropWhile Char.isWhitespace).reverse.dropWhile Char.isWhitespace).reverse

/-- True of a run of characters that is a nonempty block of decimal digits. -/
def decDigitsOk (cs : List Char) : Bool := cs.all Char.isDigit

/-- Numeric value of a block of decimal digits. -/
def decVal (cs : List Char) : ℕ := cs.foldl (fun n c => 10 * n + (c.toNat - 48)) 0

/-- Python `float(s)` on a string, restricted to optionally signed decimal
literals (with surrounding whitespace), which is the shape the data feed
produces; any other string fails to parse, as in Python, with `ValueError`. -/
def pyParseFloat? (s : String) : Option ℚ :=
  let cs := stripChars s.toList
  let signed : ℚ × List Char :=
    match cs with
    | '-' :: r => (-1, r)
    | '+' :: r => (1, r)
    | _ => (1, cs)
  let sign := signed.1
  let body := signed.2
  let ip := body.takeWhile (fun c => c ≠ '.')
  let rest := body.dropWhile (fun c => c ≠ '.')
  match rest with
  | [] => if ip ≠ [] ∧ decDigitsOk ip then some (sign * decVal ip) else none
  | _ :: frac =>
    if (ip ≠ [] ∨ frac ≠ []) ∧ decDigitsOk ip ∧ decDigitsOk frac
    then some (sign * ((decVal ip : ℚ) + (decVal frac : ℚ) / 10 ^ frac.length))
    else none

/-- Python `float(x)` on a JSON value: numbers convert to themselves, strings
are parsed (raising `ValueError` on failure), and `null` or a container
raises `TypeError`. -/
def pyFloat : JVal → Except PyErr ℚ
  | .jnum q => .ok q
  | .jstr s =>
    match pyParseFloat? s with
    | some q => .ok q
    | none => .error .valueError
  | .jnull => .error .typeError
  | .junhash => .error .typeError

/-- Python `str.strip()` applied to the flight field (source line 500): a
string value is stripped of surrounding whitespace, any non-string value
raises `AttributeError`. -/
def pyStrip : JVal → Except PyErr String
  | .jstr s => .ok ⟨stripChars s.toList⟩
  | _ => .error .attributeError

/-- Whether a JSON value may be used as a dictionary key or set element
without raising `TypeError`. -/
def hashable : JVal → Bool
  | .junhash => false
  | _ => true

/-- One aircraft record of the snapshot's `aircraft` collection, restricted to
the keys the source reads.  `none` is an absent key; an explicit `null` is
`some .jnull`. -/
structure Record where
  lat : Option JVal
  lon : Option JVal
  alt_baro : Option JVal
  alt_geom : Option JVal
  gs : Option JVal
  hex : Option JVal
  flight : Option JVal
deriving DecidableEq

/-- An element of the `aircraft` collection as iterated by the loop: either a
JSON object (the only shape whose `.get` does not raise) or anything else,
whose first `.get` raises `AttributeError`. -/
inductive RawRecord
  | notADict
  | obj (r : Record)
deriving DecidableEq

/-- One cycle's input, as seen by `fetch_aircraft_data`:
`fetchError` covers a transport error, a bad HTTP status, or an unparsable
body (the `requests` calls raise before any state is read);
`malformed` covers a parsed payload whose shape breaks before the record loop
runs (payload not an object, or an `aircraft` value that is not iterable);
`records rs` is a payload whose `aircraft` collection iterates the elements
`rs` (a payload without an `aircraft` key yields `records []`, the default of
`data.get('aircraft', [])`). -/
inductive FetchInput
  | fetchError
  | malformed
  | records (rs : List RawRecord)
deriving DecidableEq

/-- Altitude extraction, source line 459: prefer `alt_baro`, falling back to
`alt_geom` only when the `alt_baro` key is absent (Python's
`ac.get('alt_baro', ac.get('alt_geom'))` returns an explicit `null` rather
than the fallback). -/
def altFieldOf (r : Record) : Option JVal :=
  match r.alt_baro with
  | some v => some v
  | none => r.alt_geom

/-- Altitude normalisation and conversion, source lines 466-473: the literal
`'ground'` becomes `0`; then `float(alt)` — a `ValueError` is caught and the
record is dropped (`.ok none`), any other exception propagates. -/
def altFt (v : JVal) : Except PyErr (Option ℚ) :=
  let v := if v = .jstr "ground" then .jnum 0 else v
  match pyFloat v with
  | .ok q => .ok (some q)
  | .error .valueError => .ok none
  | .error e => .error e

/-- The `haversine(receiver_pos, ac_pos, unit=Unit.MILES)` call of source
line 477.  Modelled from the spec: the haversine library itself is external
code; per GeoMath (spec section 4.1) it computes great-circle miles for
in-range coordinates and rejects out-of-range latitude or longitude, and as
ordinary Python arithmetic it raises `TypeError` on non-numeric input.  On
success it returns the numeric latitude, longitude and the (opaque)
distance. -/
def havMiles (ext : Ext) (lat lon : JVal) : Except PyErr (ℚ × ℚ × ℚ) :=
  match lat, lon with
  | .jnum a, .jnum b =>
    if |ext.receiverLat| ≤ 90 ∧ |ext.receiverLon| ≤ 180 ∧ |a| ≤ 90 ∧ |b| ≤ 180
    then .ok (a, b, ext.hav a b)
    else .error .valueError
  | _, _ => .error .typeError

/-- Groundspeed extraction, source lines 480-486: absent or `null` or the
literal `'N/A'` stays unknown (`none`); otherwise `float(gs_val)` is
attempted, a `ValueError` keeps it unknown, and any other exception
propagates. -/
def gsFloat (g : Option JVal) : Except PyErr (Option ℚ) :=
  match jGet g with
  | none => .ok none
  | some v =>
    if v = .jstr "N/A" then .ok none
    else
      match pyFloat v with
      | .ok q => .ok (some q)
      | .error .valueError => .ok none
      | .error e => .error e

/-- One value of `temp_aircraft_seen` / `current_aircraft` (source lines
496-503).  `gs` keeps the raw JSON value with default `'N/A'`, exactly as
stored. -/
structure AcEntry where
  lat : ℚ
  lon : ℚ
  alt : ℚ
  flight : String
  gs : JVal
deriving DecidableEq

/-- Python dictionary assignment `d[k] = v` on an association list whose keys
are unique: overwrite in place if the key is present, append otherwise. -/
def dictSet {α : Type} (m : List (JVal × α)) (k : JVal) (v : α) : List (JVal × α) :=
  if m.any (fun p => p.1 = k) then m.map (fun p => if p.1 = k then (k, v) else p)
  else m ++ [(k, v)]

/-- Python dictionary lookup `d.get(k)`. -/
def dictGet? {α : Type} (m : List (JVal × α)) (k : JVal) : Option α :=
  (m.find? (fun p => p.1 = k)).map Prod.snd

/-- The keys of a dictionary. -/
def dictKeys {α : Type} (m : List (JVal × α)) : List JVal := m.map Prod.fst

/-- Python `set.add`. -/
def setAdd (s : List JVal) (k : JVal) : List JVal := if k ∈ s then s else s ++ [k]

/-- Python `track[-MAX_TRACK_POINTS:]` for the positive constant
`MAX_TRACK_POINTS`: the last `n` elements. -/
def takeLast {α : Type} (n : ℕ) (l : List α) : List α := l.drop (l.length - n)

/-- The state threaded through the record loop of `fetch_aircraft_data`
(source lines 443-517): the per-cycle locals (`new_*`, `temp_aircraft_seen`,
`current_hex_codes`), the shared `self.aircraft_tracks` which the loop
mutates in place, the clock cursor (each evaluation of
`ac.get('hex', str(time.time()))` consumes one reading — the default
argument is evaluated eagerly), and `keys_log`, pure instrumentation that
records each `(hex_code, synthetic?, clock tick)` triple in processing order
and influences nothing else. -/
structure LoopState where
  new_distances : List ℚ
  new_altitudes : List ℚ
  new_groundspeeds : List (Option ℚ)
  temp_aircraft_seen : List (JVal × AcEntry)
  current_hex_codes : List JVal
  tracks : List (JVal × List (ℚ × ℚ))
  tick : ℕ
  keys_log : List (JVal × Bool × ℕ)
deriving DecidableEq

/-- The tail of the loop body once a record is accepted (source lines
488-517): append to the three `new_*` lists, compute the map key (the `hex`
field, or `str(time.time())` when absent), add it to `current_hex_codes`
(raising if unhashable), build the `temp_aircraft_seen` entry (the
`.strip()` on the flight field raises on non-strings), and append the
position to the track, trimming to the last `MAX_TRACK_POINTS` points. -/
def procAccept (ext : Ext) (s : LoopState) (ac : Record)
    (latq lonq dist alt_ft : ℚ) (gsf : Option ℚ) : LoopState × Option PyErr :=
  let s1 : LoopState :=
    { s with
      new_distances := s.new_distances ++ [dist]
      new_altitudes := s.new_altitudes ++ [alt_ft]
      new_groundspeeds := s.new_groundspeeds ++ [gsf] }
  let key : JVal × Bool :=
    match ac.hex with
    | some v => (v, false)
    | none => (.jstr (ext.clockStr s.tick), true)
  let s2 : LoopState :=
    { s1 with tick := s.tick + 1, keys_log := s1.keys_log ++ [(key.1, key.2, s.tick)] }
  if hashable key.1 then
    let s3 : LoopState := { s2 with current_hex_codes := setAdd s2.current_hex_codes key.1 }
    match pyStrip (ac.flight.getD (.jstr "N/A")) with
    | .error e => (s3, some e)
    | .ok fl =>
      let entry : AcEntry :=
        { lat := latq, lon := lonq, alt := alt_ft, flight := fl
          gs := ac.gs.getD (.jstr "N/A") }
      let s4 : LoopState :=
        { s3 with temp_aircraft_seen := dictSet s3.temp_aircraft_seen key.1 entry }
      let t1 := ((dictGet? s4.tracks key.1).getD []) ++ [(latq, lonq)]
      let t2 := if MAX_TRACK_POINTS < t1.length then takeLast MAX_TRACK_POINTS t1 else t1
      ({ s4 with tracks := dictSet s4.tracks key.1 t2 }, none)
  else (s2, some .typeError)

/-- One iteration of the record loop (source lines 453-517).  The second
component is the exception, if any, escaping that iteration; the first is
the loop state at that moment (partial per-record mutations included, since
`self.aircraft_tracks` and the wall clock survive an aborted cycle). -/
def procRecord (ext : Ext) (s : LoopState) (raw : RawRecord) : LoopState × Option PyErr :=
  match raw with
  | .notADict => (s, some .attributeError)
  | .obj ac =>
    match jGet ac.lat, jGet ac.lon, jGet (altFieldOf ac) with
    | some latV, some lonV, some altV =>
      (match altFt altV with
      | .error e => (s, some e)
      | .ok none => (s, none)
      | .ok (some alt_ft) =>
        match havMiles ext latV lonV with
        | .error e => (s, some e)
        | .ok (latq, lonq, dist) =>
          match gsFloat ac.gs with
          | .error e => (s, some e)
          | .ok gsf => procAccept ext s ac latq lonq dist alt_ft gsf)
    | _, _, _ => (s, none)

/-- The record loop itself: process elements in order, stopping at the first
escaping exception. -/
def runRecords (ext : Ext) : LoopState → List RawRecord → LoopState × Bool
  | s, [] => (s, true)
  | s, r :: rs =>
    match procRecord ext s r with
    | (s', none) => runRecords ext s' rs
    | (s', some _) => (s', false)

/-- The tracker's persistent state: the three cumulative series, the current
aircraft table, the per-identity tracks, and the clock cursor. -/
structure TrackerState where
  all_distances : List ℚ
  all_altitudes : List ℚ
  all_groundspeeds : List (Option ℚ)
  current_aircraft : List (JVal × AcEntry)
  aircraft_tracks : List (JVal × List (ℚ × ℚ))
  tick : ℕ
deriving DecidableEq

/-- Loop state at the top of a cycle: fresh per-cycle locals, the shared
tracks and clock carried over. -/
def initLoop (st : TrackerState) : LoopState :=
  { new_distances := [], new_altitudes := [], new_groundspeeds := []
    temp_aircraft_seen := [], current_hex_codes := []
    tracks := st.aircraft_tracks, tick := st.tick, keys_log := [] }

/-- The prune step of source lines 529-535: delete every track whose key was
not seen this cycle. -/
def pruneTracks (tr : List (JVal × List (ℚ × ℚ))) (seen : List JVal) :
    List (JVal × List (ℚ × ℚ)) :=
  tr.filter (fun p => p.1 ∈ seen)

/-- The method `AdsbTracker.fetch_aircraft_data` (source lines 435-544), as a
function of the externals, the configuration constant `KEEP_ALL_TRACKS`, the
tracker state and the cycle's input.  Returns the new state and the boolean the
method returns (`True` on success, `False` when any exception was caught).
On success the cumulative lists are extended, `current_aircraft` is replaced
wholesale by `temp_aircraft_seen`, and tracks are pruned when
`KEEP_ALL_TRACKS == 0`; on failure only the in-loop mutations of
`aircraft_tracks` (and the advanced clock) survive. -/
def fetch_aircraft_data (ext : Ext) (KEEP_ALL_TRACKS : ℕ) (st : TrackerState)
    (inp : FetchInput) : TrackerState × Bool :=
  match inp with
  | .fetchError => (st, false)
  | .malformed => (st, false)
  | .records rs =>
    match runRecords ext (initLoop st) rs with
    | (s, false) => ({ st with aircraft_tracks := s.tracks, tick := s.tick }, false)
    | (s, true) =>
      ({ all_distances := st.all_distances ++ s.new_distances
         all_altitudes := st.all_altitudes ++ s.new_altitudes
         all_groundspeeds := st.all_groundspeeds ++ s.new_groundspeeds
         current_aircraft := s.temp_aircraft_seen
         aircraft_tracks :=
           if KEEP_ALL_TRACKS = 0 then pruneTracks s.tracks s.current_hex_codes
           else s.tracks
         tick := s.tick }, true)

/-- The filter of `update_scatter_gs_plot` (source line 989): the
`(gs, alt)` pairs whose groundspeed is not `None`. -/
def scatter_gs_valid_data (gss : List (Option ℚ)) (alts : List ℚ) :
    List (Option ℚ × ℚ) :=
  (gss.zip alts).filter (fun p => p.1.isSome)

/-- The filter of `update_hist_gs_plot` (source line 1031): the groundspeed
entries that are not `None`. -/
def hist_gs_valid (gss : List (Option ℚ)) : List (Option ℚ) :=
  gss.filter (fun g => g.isSome)

/-! ### Derived predicates used by the claims -/

/-- Every stored track holds at most `MAX_TRACK_POINTS` positions. -/
def TracksBounded (tr : List (JVal × List (ℚ × ℚ))) : Prop :=
  ∀ p ∈ tr, p.2.length ≤ MAX_TRACK_POINTS

/-- The synthetic (clock-derived) keys handed out during a cycle, in
processing order, read off the instrumentation log. -/
def synthKeys (s : LoopState) : List JVal :=
  (s.keys_log.filter (fun e => e.2.1)).map (fun e => e.1)

/-- Invariant of the instrumentation log: entries carry strictly increasing
clock ticks, every tick lies below the cursor, and a synthetic entry's key is
the string of its clock reading. -/
def KeysInv (ext : Ext) (s : LoopState) : Prop :=
  List.Pairwise (fun e1 e2 => e1.2.2 < e2.2.2) s.keys_log ∧
  ∀ e ∈ s.keys_log, e.2.2 < s.tick ∧ (e.2.1 = true → e.1 = .jstr (ext.clockStr e.2.2))

/-- A record missing latitude, longitude or altitude (the drop of source
line 462). -/
def dropMissing (r : Record) : Bool :=
  (jGet r.lat).isNone || (jGet r.lon).isNone || (jGet (altFieldOf r)).isNone

/-- A record whose altitude is a non-numeric string other than `'ground'`
(the `ValueError` drop of source line 473). -/
def dropBadAlt (r : Record) : Bool :=
  match jGet (altFieldOf r) with
  | some v =>
    match altFt v with
    | .ok none => true
    | _ => false
  | none => false

/-- Latitude and longitude (and the configured receiver coordinate) are
in-range numbers, so the haversine call cannot raise. -/
def latlonOk (ext : Ext) (r : Record) : Bool :=
  match jGet r.lat, jGet r.lon with
  | some (.jnum a), some (.jnum b) =>
    decide (|ext.receiverLat| ≤ 90) && decide (|ext.receiverLon| ≤ 180) &&
      decide (|a| ≤ 90) && decide (|b| ≤ 180)
  | _, _ => false

/-- The altitude value is a number or a string, the only shapes `float(alt)`
handles without an uncaught exception. -/
def altBenign (r : Record) : Bool :=
  match jGet (altFieldOf r) with
  | some (.jnum _) => true
  | some (.jstr _) => true
  | _ => false

/-- The groundspeed field is absent, `null`, a number or a string, the only
shapes the gs extraction handles without an uncaught exception. -/
def gsBenign (r : Record) : Bool :=
  match jGet r.gs with
  | none => true
  | some (.jnum _) => true
  | some (.jstr _) => true
  | _ => false

/-- The hex field, if present, is hashable. -/
def hexBenign (r : Record) : Bool :=
  match r.hex with
  | some .junhash => false
  | _ => true

/-- The flight field is absent or a string, the only shapes `.strip()`
handles without raising. -/
def flightBenign (r : Record) : Bool :=
  match r.flight with
  | none => true
  | some (.jstr _) => true
  | _ => false

/-- A record the loop body processes without any escaping exception: it is
either dropped at one of the two silent-drop points, or all of its consumed
fields have exception-free shapes. -/
def recBenign (ext : Ext) (r : Record) : Bool :=
  dropMissing r || dropBadAlt r ||
    (latlonOk ext r && altBenign r && gsBenign r && hexBenign r && flightBenign r)

/-! ### Concrete inputs used by scenarios, counterexamples and witnesses -/

/-- Externals with a degenerate wall clock: every reading of
`str(time.time())` returns the same string, as happens in Python whenever
two readings fall within the clock's resolution. -/
def ext0 : Ext :=
  { receiverLat := 0, receiverLon := 0, hav := fun _ _ => 0, clockStr := fun _ => "T" }

/-- Externals whose first two clock readings differ. -/
def extD : Ext :=
  { receiverLat := 0, receiverLon := 0, hav := fun _ _ => 0
    clockStr := fun n => if n = 0 then "t0" else "t1" }

/-- The tracker state at process start (source lines 237-245): everything
empty. -/
def st0 : TrackerState :=
  { all_distances := [], all_altitudes := [], all_groundspeeds := []
    current_aircraft := [], aircraft_tracks := [], tick := 0 }

/-- A fully well-formed record with identity `AAA` at position (1, 1). -/
def goodRec : Record :=
  { lat := some (.jnum 1), lon := some (.jnum 1), alt_baro := some (.jnum 100)
    alt_geom := none, gs := none, hex := some (.jstr "AAA"), flight := none }

/-- A record whose latitude is a non-numeric string: the `haversine` call
raises an exception the loop does not catch. -/
def badLatRec : Record :=
  { lat := some (.jstr "abc"), lon := some (.jnum 0), alt_baro := some (.jnum 100)
    alt_geom := none, gs := none, hex := none, flight := none }

/-- A well-formed record with no `hex` field, forcing a synthetic key. -/
def hexlessRec (p : ℚ) : Record :=
  { lat := some (.jnum p), lon := some (.jnum p), alt_baro := some (.jnum 100)
    alt_geom := none, gs := none, hex := none, flight := none }

/-- A well-formed record with identity `XYZ` at position (p, p). -/
def xyzRec (p : ℚ) : Record :=
  { lat := some (.jnum p), lon := some (.jnum p), alt_baro := some (.jnum 100)
    alt_geom := none, gs := none, hex := some (.jstr "XYZ"), flight := none }

/-- A well-formed record with identity `H`, position (p, p) and altitude a. -/
def hRec (p a : ℚ) : Record :=
  { lat := some (.jnum p), lon := some (.jnum p), alt_baro := some (.jnum a)
    alt_geom := none, gs := none, hex := some (.jstr "H"), flight := none }

/-- Eleven consecutive successful cycles, cycle i (1-based) reporting the
single identity `XYZ` at position (i, i) — the spec's track-eviction
scenario. -/
def elevenCycles : TrackerState :=
  ([1, 2, 3, 4, 5, 6, 7, 8, 9, 10, 11] : List ℚ).foldl
    (fun st p => (fetch_aircraft_data ext0 0 st (.records [.obj (xyzRec p)])).1) st0

/-- A tracker state already holding one track, keyed `K`. -/
def stK : TrackerState :=
  { st0 with aircraft_tracks := [(.jstr "K", [(1, 1)])] }

/-! ### Dictionary and set lemmas -/

theorem dictSet_mem {α : Type} {m : List (JVal × α)} {k : JVal} {v : α} {x : JVal × α}
    (hx : x ∈ dictSet m k v) : x = (k, v) ∨ x ∈ m := by
  unfold dictSet at hx
  split at hx
  · rcases List.mem_map.mp hx with ⟨p, hp, he⟩
    by_cases h : p.1 = k
    · simp only [h, if_pos] at he
      left; exact he.symm
    · simp only [h, if_neg, not_false_iff] at he
      right; exact he ▸ hp
  · rcases List.mem_append.mp hx with h | h
    · right; exact h
    · left; simpa using h

theorem dictKeys_set {α : Type} (m : List (JVal × α)) (k : JVal) (v : α) :
    (dictKeys (dictSet m k v) = dictKeys m ∧ k ∈ dictKeys m) ∨
    (dictKeys (dictSet m k v) = dictKeys m ++ [k] ∧ k ∉ dictKeys m) := by
  unfold dictSet dictKeys
  split
  case isTrue h =>
    left
    constructor
    · rw [List.map_map]
      apply List.map_congr_left
      intro p _
      by_cases hp : p.1 = k <;> simp [hp]
    · rcases List.any_eq_true.mp h with ⟨p, hp, hpe⟩
      exact List.mem_map.mpr ⟨p, hp, by simpa using hpe⟩
  case isFalse h =>
    right
    constructor
    · simp
    · intro hk
      rcases List.mem_map.mp hk with ⟨p, hp, hpe⟩
      exact h (List.any_eq_true.mpr ⟨p, hp, by simpa using hpe⟩)

theorem mem_dictKeys_set {α : Type} {m : List (JVal × α)} {k x : JVal} {v : α} :
    x ∈ dictKeys (dictSet m k v) ↔ x ∈ dictKeys m ∨ x = k := by
  rcases dictKeys_set m k v with ⟨he, hk⟩ | ⟨he, hk⟩
  · rw [he]
    constructor
    · exact fun h => Or.inl h
    · rintro (h | rfl)
      · exact h
      · exact hk
  · rw [he, List.mem_append]
    simp

theorem nodup_dictKeys_set {α : Type} {m : List (JVal × α)} {k : JVal} {v : α}
    (h : (dictKeys m).Nodup) : (dictKeys (dictSet m k v)).Nodup := by
  rcases dictKeys_set m k v with ⟨he, _⟩ | ⟨he, hk⟩
  · rw [he]; exact h
  · rw [he]
    exact List.Nodup.append h (List.nodup_singleton k) (by simpa using hk)

theorem dictSet_length {α : Type} (m : List (JVal × α)) (k : JVal) (v : α) :
    (dictSet m k v).length = m.length ∨ (dictSet m k v).length = m.length + 1 := by
  unfold dictSet
  split
  · left; simp
  · right; simp

theorem find?_map_set {α : Type} (m : List (JVal × α)) (k : JVal) (v : α)
    (h : m.any (fun p => p.1 = k) = true) :
    (m.map (fun p => if p.1 = k then (k, v) else p)).find? (fun p => p.1 = k) = some (k, v) := by
  induction m with
  | nil => simp at h
  | cons p m ih =>
    by_cases hp : p.1 = k
    · simp [List.find?, hp]
    · have hm : m.any (fun p => p.1 = k) = true := by
        rcases List.any_eq_true.mp h with ⟨q, hq, hqe⟩
        rcases List.mem_cons.mp hq with rfl | hq2
        · exact absurd (by simpa using hqe) hp
        · exact List.any_eq_true.mpr ⟨q, hq2, hqe⟩
      simpa [List.find?, hp] using ih hm

theorem find?_append_new {α : Type} (m : List (JVal × α)) (k : JVal) (v : α)
    (h : m.any (fun p => p.1 = k) = false) :
    (m ++ [(k, v)]).find? (fun p => p.1 = k) = some (k, v) := by
  induction m with
  | nil => simp [List.find?]
  | cons p m ih =>
    rw [List.any_cons, Bool.or_eq_false_iff] at h
    rw [List.cons_append, List.find?_cons_of_neg, ih h.2]
    simpa using h.1

theorem dictGet?_set_self {α : Type} (m : List (JVal × α)) (k : JVal) (v : α) :
    dictGet? (dictSet m k v) k = some v := by
  unfold dictGet? dictSet
  split
  case isTrue h =>
    rw [find?_map_set m k v h]
    rfl
  case isFalse h =>
    rw [Bool.not_eq_true] at h
    rw [find?_append_new m k v h]
    rfl

theorem mem_setAdd {s : List JVal} {k x : JVal} : x ∈ setAdd s k ↔ x ∈ s ∨ x = k := by
  unfold setAdd
  split
  case isTrue h =>
    constructor
    · exact fun hx => Or.inl hx
    · rintro (hx | rfl)
      · exact hx
      · exact h
  case isFalse h => simp [List.mem_append]

theorem takeLast_length_le {α : Type} (n : ℕ) (l : List α) :
    (takeLast n l).length ≤ n := by
  unfold takeLast
  simp only [List.length_drop]
  omega

theorem trim_length_le {α : Type} (l : List α) :
    (if MAX_TRACK_POINTS < l.length then takeLast MAX_TRACK_POINTS l else l).length ≤
      MAX_TRACK_POINTS := by
  split
  case isTrue h => exact takeLast_length_le _ _
  case isFalse h => omega

/-! ### Shape of one loop iteration -/

theorem procAccept_shape (ext : Ext) (s : LoopState) (ac : Record)
    (latq lonq dist alt_ft : ℚ) (gsf : Option ℚ) (s2 : LoopState) (e : Option PyErr)
    (heq : procAccept ext s ac latq lonq dist alt_ft gsf = (s2, e)) :
    ∃ k b,
      (b = true → k = .jstr (ext.clockStr s.tick)) ∧
      s2.new_distances = s.new_distances ++ [dist] ∧
      s2.new_altitudes = s.new_altitudes ++ [alt_ft] ∧
      s2.new_groundspeeds = s.new_groundspeeds ++ [gsf] ∧
      s2.keys_log = s.keys_log ++ [(k, b, s.tick)] ∧
      s2.tick = s.tick + 1 ∧
      ((e ≠ none ∧ s2.tracks = s.tracks ∧ s2.temp_aircraft_seen = s.temp_aircraft_seen) ∨
       (e = none ∧ s2.current_hex_codes = setAdd s.current_hex_codes k ∧
        (∃ en, s2.temp_aircraft_seen = dictSet s.temp_aircraft_seen k en) ∧
        (∃ t, s2.tracks = dictSet s.tracks k t ∧ t.length ≤ MAX_TRACK_POINTS))) := by
  rcases hhex : ac.hex with _ | v
  case none =>
    simp only [procAccept, hhex, hashable] at heq
    rcases hstrip : pyStrip (ac.flight.getD (.jstr "N/A")) with e1 | fl <;>
      simp only [hstrip, if_pos] at heq <;>
      injection heq with h1 h2 <;> subst h1 <;> subst h2
    · exact ⟨.jstr (ext.clockStr s.tick), true, fun _ => rfl, rfl, rfl, rfl, rfl, rfl,
        Or.inl ⟨by simp, rfl, rfl⟩⟩
    · exact ⟨.jstr (ext.clockStr s.tick), true, fun _ => rfl, rfl, rfl, rfl, rfl, rfl,
        Or.inr ⟨rfl, rfl, ⟨_, rfl⟩, ⟨_, rfl, trim_length_le _⟩⟩⟩
  case some =>
    simp only [procAccept, hhex] at heq
    split at heq
    case isTrue =>
      rcases hstrip : pyStrip (ac.flight.getD (.jstr "N/A")) with e1 | fl <;>
        simp only [hstrip] at heq <;>
        injection heq with h1 h2 <;> subst h1 <;> subst h2
      · exact ⟨v, false, fun h => Bool.noConfusion h, rfl, rfl, rfl, rfl, rfl,
          Or.inl ⟨by simp, rfl, rfl⟩⟩
      · exact ⟨v, false, fun h => Bool.noConfusion h, rfl, rfl, rfl, rfl, rfl,
          Or.inr ⟨rfl, rfl, ⟨_, rfl⟩, ⟨_, rfl, trim_length_le _⟩⟩⟩
    case isFalse =>
      injection heq with h1 h2
      subst h1; subst h2
      exact ⟨v, false, fun h => Bool.noConfusion h, rfl, rfl, rfl, rfl, rfl,
        Or.inl ⟨by simp, rfl, rfl⟩⟩

theorem procRecord_shape (ext : Ext) (s : LoopState) (raw : RawRecord)
    (s2 : LoopState) (e : Option PyErr) (heq : procRecord ext s raw = (s2, e)) :
    s2 = s ∨
    ∃ ac d a g k b,
      raw = .obj ac ∧ gsFloat ac.gs = .ok g ∧
      (b = true → k = .jstr (ext.clockStr s.tick)) ∧
      s2.new_distances = s.new_distances ++ [d] ∧
      s2.new_altitudes = s.new_altitudes ++ [a] ∧
      s2.new_groundspeeds = s.new_groundspeeds ++ [g] ∧
      s2.keys_log = s.keys_log ++ [(k, b, s.tick)] ∧
      s2.tick = s.tick + 1 ∧
      ((e ≠ none ∧ s2.tracks = s.tracks ∧ s2.temp_aircraft_seen = s.temp_aircraft_seen) ∨
       (e = none ∧ s2.current_hex_codes = setAdd s.current_hex_codes k ∧
        (∃ en, s2.temp_aircraft_seen = dictSet s.temp_aircraft_seen k en) ∧
        (∃ t, s2.tracks = dictSet s.tracks k t ∧ t.length ≤ MAX_TRACK_POINTS))) := by
  cases raw with
  | notADict =>
    simp only [procRecord] at heq
    injection heq with h1 h2
    exact Or.inl h1.symm
  | obj ac =>
    simp only [procRecord] at heq
    split at heq
    case h_2 =>
      injection heq with h1 h2
      exact Or.inl h1.symm
    case h_1 latV lonV altV hlat hlon halt =>
      split at heq
      case h_1 =>
        injection heq with h1 h2
        exact Or.inl h1.symm
      case h_2 =>
        injection heq with h1 h2
        exact Or.inl h1.symm
      case h_3 alt_ft halt_ft =>
        split at heq
        case h_1 =>
          injection heq with h1 h2
          exact Or.inl h1.symm
        case h_2 latq lonq dist hhav =>
          split at heq
          case h_1 =>
            injection heq with h1 h2
            exact Or.inl h1.symm
          case h_2 gsf hgs =>
            right
            obtain ⟨k, b, hb, h1, h2, h3, h4, h5, h6⟩ :=
              procAccept_shape ext s ac latq lonq dist alt_ft gsf s2 e heq
            exact ⟨ac, dist, alt_ft, gsf, k, b, rfl, hgs, hb, h1, h2, h3, h4, h5, h6⟩

/-! ### Invariants of the record loop -/

theorem runRecords_inv (ext : Ext) (P : LoopState → Prop)
    (hstep : ∀ s r s2 e, procRecord ext s r = (s2, e) → P s → P s2) :
    ∀ rs s, P s → P (runRecords ext s rs).1 := by
  intro rs
  induction rs with
  | nil => exact fun s h => h
  | cons r rs ih =>
    intro s h
    rcases hpr : procRecord ext s r with ⟨s2, e⟩
    rcases e with _ | e1 <;> simp only [runRecords, hpr]
    · exact ih s2 (hstep s r s2 none hpr h)
    · exact hstep s r s2 (some e1) hpr h

theorem runRecords_inv_ok (ext : Ext) (P : LoopState → Prop)
    (hstep : ∀ s r s2, procRecord ext s r = (s2, none) → P s → P s2) :
    ∀ rs s, (runRecords ext s rs).2 = true → P s → P (runRecords ext s rs).1 := by
  intro rs
  induction rs with
  | nil => exact fun s _ h => h
  | cons r rs ih =>
    intro s hok h
    rcases hpr : procRecord ext s r with ⟨s2, e⟩
    rcases e with _ | e1
    · simp only [runRecords, hpr]
      simp only [runRecords, hpr] at hok
      exact ih s2 hok (hstep s r s2 hpr h)
    · simp only [runRecords, hpr] at hok
      cases hok

theorem procRecord_tick (ext : Ext) (s : LoopState) (raw : RawRecord)
    (s2 : LoopState) (e : Option PyErr) (heq : procRecord ext s raw = (s2, e)) :
    s2.tick = s.tick ∨ s2.tick = s.tick + 1 := by
  rcases procRecord_shape ext s raw s2 e heq with rfl |
    ⟨_, _, _, _, _, _, _, _, _, _, _, _, _, ht, _⟩
  · exact Or.inl rfl
  · exact Or.inr ht

theorem run_tick_le (ext : Ext) :
    ∀ rs (s : LoopState), (runRecords ext s rs).1.tick ≤ s.tick + rs.length := by
  intro rs
  induction rs with
  | nil => intro s; simp [runRecords]
  | cons r rs ih =>
    intro s
    rcases hpr : procRecord ext s r with ⟨s2, e⟩
    have ht := procRecord_tick ext s r s2 e hpr
    rcases e with _ | e1 <;> simp only [runRecords, hpr]
    · have := ih s2
      simp only [List.length_cons]
      omega
    · simp only [List.length_cons]
      omega

theorem run_tick_ge (ext : Ext) :
    ∀ rs (s : LoopState), s.tick ≤ (runRecords ext s rs).1.tick := by
  intro rs
  induction rs with
  | nil => intro s; simp [runRecords]
  | cons r rs ih =>
    intro s
    rcases hpr : procRecord ext s r with ⟨s2, e⟩
    have ht := procRecord_tick ext s r s2 e hpr
    rcases e with _ | e1 <;> simp only [runRecords, hpr]
    · have := ih s2
      omega
    · omega

theorem run_lockstep (ext : Ext) (rs : List RawRecord) (s : LoopState)
    (h : s.new_distances.length = s.new_altitudes.length ∧
      s.new_altitudes.length = s.new_groundspeeds.length ∧
      s.new_distances.length = s.keys_log.length) :
    (runRecords ext s rs).1.new_distances.length =
        (runRecords ext s rs).1.new_altitudes.length ∧
      (runRecords ext s rs).1.new_altitudes.length =
        (runRecords ext s rs).1.new_groundspeeds.length ∧
      (runRecords ext s rs).1.new_distances.length =
        (runRecords ext s rs).1.keys_log.length := by
  refine runRecords_inv ext
    (fun s => s.new_distances.length = s.new_altitudes.length ∧
      s.new_altitudes.length = s.new_groundspeeds.length ∧
      s.new_distances.length = s.keys_log.length) ?_ rs s h
  intro s r s2 e heq hP
  rcases procRecord_shape ext s r s2 e heq with rfl |
    ⟨_, _, _, _, _, _, _, _, _, hnd, hna, hng, hkl, _, _⟩
  · exact hP
  · simp only [hnd, hna, hng, hkl, List.length_append, List.length_cons,
      List.length_nil]
    omega

theorem run_bounded (ext : Ext) (rs : List RawRecord) (s : LoopState)
    (h : TracksBounded s.tracks) : TracksBounded (runRecords ext s rs).1.tracks := by
  refine runRecords_inv ext (fun s => TracksBounded s.tracks) ?_ rs s h
  intro s r s2 e heq hP
  rcases procRecord_shape ext s r s2 e heq with rfl |
    ⟨_, _, _, _, k, _, _, _, _, _, _, _, _, _, hfin⟩
  · exact hP
  · rcases hfin with ⟨_, htr, _⟩ | ⟨_, _, _, t, htr, hlen⟩
    · rw [htr]; exact hP
    · rw [htr]
      intro p hp
      rcases dictSet_mem hp with rfl | hp2
      · exact hlen
      · exact hP p hp2

theorem run_track_keys (ext : Ext) (rs : List RawRecord) (s : LoopState) (x : JVal)
    (h : x ∈ dictKeys s.tracks) : x ∈ dictKeys (runRecords ext s rs).1.tracks := by
  refine runRecords_inv ext (fun s => x ∈ dictKeys s.tracks) ?_ rs s h
  intro s r s2 e heq hP
  rcases procRecord_shape ext s r s2 e heq with rfl |
    ⟨_, _, _, _, k, _, _, _, _, _, _, _, _, _, hfin⟩
  · exact hP
  · rcases hfin with ⟨_, htr, _⟩ | ⟨_, _, _, t, htr, _⟩
    · rw [htr]; exact hP
    · rw [htr]; exact mem_dictKeys_set.mpr (Or.inl hP)

theorem run_temp_nodup (ext : Ext) (rs : List RawRecord) (s : LoopState)
    (h : (dictKeys s.temp_aircraft_seen).Nodup) :
    (dictKeys (runRecords ext s rs).1.temp_aircraft_seen).Nodup := by
  refine runRecords_inv ext (fun s => (dictKeys s.temp_aircraft_seen).Nodup) ?_ rs s h
  intro s r s2 e heq hP
  rcases procRecord_shape ext s r s2 e heq with rfl |
    ⟨_, _, _, _, k, _, _, _, _, _, _, _, _, _, hfin⟩
  · exact hP
  · rcases hfin with ⟨_, _, htm⟩ | ⟨_, _, ⟨en, htm⟩, _⟩
    · rw [htm]; exact hP
    · rw [htm]; exact nodup_dictKeys_set hP

theorem run_temp_sub_log (ext : Ext) (rs : List RawRecord) (s : LoopState)
    (h : ∀ x ∈ dictKeys s.temp_aircraft_seen, x ∈ s.keys_log.map (fun e => e.1)) :
    ∀ x ∈ dictKeys (runRecords ext s rs).1.temp_aircraft_seen,
      x ∈ (runRecords ext s rs).1.keys_log.map (fun e => e.1) := by
  refine runRecords_inv ext
    (fun s => ∀ x ∈ dictKeys s.temp_aircraft_seen, x ∈ s.keys_log.map (fun e => e.1))
    ?_ rs s h
  intro s r s2 e heq hP
  rcases procRecord_shape ext s r s2 e heq with rfl |
    ⟨_, _, _, _, k, b, _, _, _, _, _, _, hkl, _, hfin⟩
  · exact hP
  · rcases hfin with ⟨_, _, htm⟩ | ⟨_, _, ⟨en, htm⟩, _⟩
    · rw [htm, hkl]
      intro x hx
      rw [List.map_append]
      exact List.mem_append.mpr (Or.inl (hP x hx))
    · rw [htm, hkl]
      intro x hx
      rw [List.map_append]
      rcases mem_dictKeys_set.mp hx with hx2 | rfl
      · exact List.mem_append.mpr (Or.inl (hP x hx2))
      · exact List.mem_append.mpr (Or.inr (by simp))

theorem run_temp_le_log (ext : Ext) (rs : List RawRecord) (s : LoopState)
    (h : s.temp_aircraft_seen.length ≤ s.keys_log.length) :
    (runRecords ext s rs).1.temp_aircraft_seen.length ≤
      (runRecords ext s rs).1.keys_log.length := by
  refine runRecords_inv ext
    (fun s => s.temp_aircraft_seen.length ≤ s.keys_log.length) ?_ rs s h
  intro s r s2 e heq hP
  rcases procRecord_shape ext s r s2 e heq with rfl |
    ⟨_, _, _, _, k, b, _, _, _, _, _, _, hkl, _, hfin⟩
  · exact hP
  · rcases hfin with ⟨_, _, htm⟩ | ⟨_, _, ⟨en, htm⟩, _⟩
    · rw [htm, hkl]
      simp
      omega
    · rw [htm, hkl]
      rcases dictSet_length s.temp_aircraft_seen k en with hl | hl <;>
        simp [hl] <;> omega

theorem run_codes_temp (ext : Ext) (rs : List RawRecord) (s : LoopState)
    (hok : (runRecords ext s rs).2 = true)
    (h : ∀ x, x ∈ s.current_hex_codes ↔ x ∈ dictKeys s.temp_aircraft_seen) :
    ∀ x, x ∈ (runRecords ext s rs).1.current_hex_codes ↔
      x ∈ dictKeys (runRecords ext s rs).1.temp_aircraft_seen := by
  refine runRecords_inv_ok ext
    (fun s => ∀ x, x ∈ s.current_hex_codes ↔ x ∈ dictKeys s.temp_aircraft_seen)
    ?_ rs s hok h
  intro s r s2 heq hP
  rcases procRecord_shape ext s r s2 none heq with rfl |
    ⟨_, _, _, _, k, b, _, _, _, _, _, _, _, _, hfin⟩
  · exact hP
  · rcases hfin with ⟨hne, _, _⟩ | ⟨_, hcd, ⟨en, htm⟩, _⟩
    · exact absurd rfl hne
    · rw [hcd, htm]
      intro x
      rw [mem_setAdd, mem_dictKeys_set, hP x]

theorem run_keysInv (ext : Ext) (rs : List RawRecord) (s : LoopState)
    (h : KeysInv ext s) : KeysInv ext (runRecords ext s rs).1 := by
  refine runRecords_inv ext (KeysInv ext) ?_ rs s h
  intro s r s2 e heq hP
  rcases procRecord_shape ext s r s2 e heq with rfl |
    ⟨_, _, _, _, k, b, _, _, hb, _, _, _, hkl, ht, _⟩
  · exact hP
  · constructor
    · rw [hkl]
      refine List.pairwise_append.mpr ⟨hP.1, List.pairwise_singleton _ _, ?_⟩
      intro e1 he1 e2 he2
      rcases List.mem_singleton.mp he2 with rfl
      exact (hP.2 e1 he1).1
    · rw [hkl, ht]
      intro e he
      rcases List.mem_append.mp he with he1 | he2
      · have h2 := hP.2 e he1
        exact ⟨Nat.lt_succ_of_lt h2.1, h2.2⟩
      · rcases List.mem_singleton.mp he2 with rfl
        exact ⟨Nat.lt_succ_self _, fun hbt => hb hbt⟩

theorem synthKeys_nodup_of (ext : Ext) (s : LoopState) (N : ℕ)
    (hinv : KeysInv ext s) (htick : s.tick ≤ N)
    (hdist : ∀ i j, i < j → j < N → ext.clockStr i ≠ ext.clockStr j) :
    (synthKeys s).Nodup := by
  unfold synthKeys
  have hp1 : (s.keys_log.filter (fun e => e.2.1)).Pairwise
      (fun e1 e2 => e1.2.2 < e2.2.2) := hinv.1.filter _
  have hp2 : (s.keys_log.filter (fun e => e.2.1)).Pairwise
      (fun e1 e2 => e1.1 ≠ e2.1) := by
    refine List.Pairwise.imp_of_mem ?_ hp1
    intro e1 e2 he1 he2 hlt
    have hm1 := List.mem_filter.mp he1
    have hm2 := List.mem_filter.mp he2
    have i1 := hinv.2 e1 hm1.1
    have i2 := hinv.2 e2 hm2.1
    have hk1 : e1.1 = .jstr (ext.clockStr e1.2.2) := i1.2 (by simpa using hm1.2)
    have hk2 : e2.1 = .jstr (ext.clockStr e2.2.2) := i2.2 (by simpa using hm2.2)
    rw [hk1, hk2]
    intro hc
    exact hdist e1.2.2 e2.2.2 hlt (by omega) (JVal.jstr.inj hc)
  exact (List.pairwise_map).mpr hp2

/-! ### Records the loop handles without an escaping exception -/

theorem procRecord_dropMissing (ext : Ext) (s : LoopState) (r : Record)
    (h : dropMissing r = true) : procRecord ext s (.obj r) = (s, none) := by
  simp only [dropMissing, Bool.or_eq_true, Option.isNone_iff_eq_none] at h
  rcases h with (h | h) | h
  · simp [procRecord, h]
  · rcases hl : jGet r.lat with _ | latV
    · simp [procRecord, hl]
    · simp [procRecord, hl, h]
  · rcases hl : jGet r.lat with _ | latV
    · simp [procRecord, hl]
    · rcases ho : jGet r.lon with _ | lonV
      · simp [procRecord, hl, ho]
      · simp [procRecord, hl, ho, h]

theorem procRecord_dropBadAlt (ext : Ext) (s : LoopState) (r : Record)
    (hm : dropMissing r = false) (h : dropBadAlt r = true) :
    procRecord ext s (.obj r) = (s, none) := by
  rcases hl : jGet r.lat with _ | latV
  · exfalso; simp [dropMissing, hl] at hm
  · rcases ho : jGet r.lon with _ | lonV
    · exfalso; simp [dropMissing, ho] at hm
    · rcases ha : jGet (altFieldOf r) with _ | altV
      · exfalso; simp [dropMissing, ha] at hm
      · have haf : altFt altV = .ok none := by
          simp only [dropBadAlt, ha] at h
          rcases hx : altFt altV with e | q
          · simp [hx] at h
          · rcases q with _ | q2
            · rfl
            · simp [hx] at h
        simp [procRecord, hl, ho, ha, haf]

theorem altFt_no_raise (v : JVal) (hv : v ≠ .jnull) (hv2 : v ≠ .junhash) :
    altFt v = .ok none ∨ ∃ q, altFt v = .ok (some q) := by
  rcases v with q | str | _ | _
  · right; exact ⟨q, rfl⟩
  · by_cases hg : (JVal.jstr str : JVal) = .jstr "ground"
    · right
      refine ⟨0, ?_⟩
      simp [altFt, hg, pyFloat]
    · rcases hp : pyParseFloat? str with _ | q
      · left; simp [altFt, hg, pyFloat, hp]
      · right; exact ⟨q, by simp [altFt, hg, pyFloat, hp]⟩
  · exact absurd rfl hv
  · exact absurd rfl hv2

theorem gsFloat_no_raise (g : Option JVal) (hb : (match jGet g with
      | none => true
      | some (.jnum _) => true
      | some (.jstr _) => true
      | _ => false) = true) :
    ∃ x, gsFloat g = .ok x := by
  rcases hg : jGet g with _ | v
  · exact ⟨none, by simp [gsFloat, hg]⟩
  · rcases v with q | str | _ | _
    · exact ⟨some q, by simp [gsFloat, hg, pyFloat]⟩
    · by_cases hna : (JVal.jstr str : JVal) = .jstr "N/A"
      · exact ⟨none, by simp [gsFloat, hg, hna]⟩
      · rcases hp : pyParseFloat? str with _ | q
        · exact ⟨none, by simp [gsFloat, hg, hna, pyFloat, hp]⟩
        · exact ⟨some q, by simp [gsFloat, hg, hna, pyFloat, hp]⟩
    · rw [hg] at hb; cases hb
    · rw [hg] at hb; cases hb

theorem havMiles_ok (ext : Ext) (a b : ℚ)
    (h : |ext.receiverLat| ≤ 90 ∧ |ext.receiverLon| ≤ 180 ∧ |a| ≤ 90 ∧ |b| ≤ 180) :
    havMiles ext (.jnum a) (.jnum b) = .ok (a, b, ext.hav a b) := by
  simp [havMiles, h.1, h.2.1, h.2.2.1, h.2.2.2]

theorem procAccept_no_raise (ext : Ext) (s : LoopState) (ac : Record)
    (latq lonq dist alt_ft : ℚ) (gsf : Option ℚ)
    (hhex : hexBenign ac = true) (hfl : flightBenign ac = true) :
    (procAccept ext s ac latq lonq dist alt_ft gsf).2 = none := by
  have hstrip : ∃ fl, pyStrip (ac.flight.getD (.jstr "N/A")) = .ok fl := by
    rcases hf : ac.flight with _ | v
    · exact ⟨⟨stripChars "N/A".toList⟩, rfl⟩
    · rcases v with q | str | _ | _
      · rw [flightBenign, hf] at hfl; cases hfl
      · exact ⟨⟨stripChars str.toList⟩, by simp [pyStrip]⟩
      · rw [flightBenign, hf] at hfl; cases hfl
      · rw [flightBenign, hf] at hfl; cases hfl
  obtain ⟨fl, hs⟩ := hstrip
  rcases hh : ac.hex with _ | v
  · simp [procAccept, hh, hashable, hs]
  · have hv : hashable v = true := by
      rcases v with q | str | _ | _ <;> simp [hashable]
      rw [hexBenign, hh] at hhex
      cases hhex
    simp [procAccept, hh, hv, hs]

theorem procRecord_benign (ext : Ext) (s : LoopState) (r : Record)
    (h : recBenign ext r = true) : (procRecord ext s (.obj r)).2 = none := by
  simp only [recBenign, Bool.or_eq_true] at h
  rcases h with h | h
  · rcases hm : dropMissing r with _ | _
    · rcases h with h | h
      · rw [hm] at h; cases h
      · rw [procRecord_dropBadAlt ext s r hm h]
    · rw [procRecord_dropMissing ext s r hm]
  · rw [Bool.and_eq_true, Bool.and_eq_true, Bool.and_eq_true, Bool.and_eq_true] at h
    obtain ⟨⟨⟨⟨hll, halt⟩, hgs⟩, hhex⟩, hfl⟩ := h
    rcases hl : jGet r.lat with _ | latV
    · rw [latlonOk, hl] at hll; cases hll
    · rcases ho : jGet r.lon with _ | lonV
      · rw [latlonOk, hl, ho] at hll
        rcases latV with q | _ | _ | _ <;> cases hll
      · rcases latV with a | str | _ | _ <;>
          [skip; (rw [latlonOk, hl, ho] at hll; cases hll);
            (rw [latlonOk, hl, ho] at hll; cases hll);
            (rw [latlonOk, hl, ho] at hll; cases hll)]
        rcases lonV with b | str | _ | _ <;>
          [skip; (rw [latlonOk, hl, ho] at hll; cases hll);
            (rw [latlonOk, hl, ho] at hll; cases hll);
            (rw [latlonOk, hl, ho] at hll; cases hll)]
        rw [latlonOk, hl, ho, Bool.and_eq_true, Bool.and_eq_true, Bool.and_eq_true] at hll
        obtain ⟨⟨⟨h1, h2⟩, h3⟩, h4⟩ := hll
        rcases ha : jGet (altFieldOf r) with _ | altV
        · rw [altBenign, ha] at halt; cases halt
        · have haltv : altV ≠ .jnull ∧ altV ≠ .junhash := by
            rw [altBenign, ha] at halt
            rcases altV with _ | _ | _ | _
            · exact ⟨fun hc => JVal.noConfusion hc, fun hc => JVal.noConfusion hc⟩
            · exact ⟨fun hc => JVal.noConfusion hc, fun hc => JVal.noConfusion hc⟩
            · cases halt
            · cases halt
          simp only [procRecord, hl, ho, ha]
          rcases altFt_no_raise altV haltv.1 haltv.2 with haf | ⟨q, haf⟩
          · rw [haf]
          · rw [haf,
              havMiles_ok ext a b
                ⟨of_decide_eq_true h1, of_decide_eq_true h2,
                 of_decide_eq_true h3, of_decide_eq_true h4⟩]
            obtain ⟨x, hgx⟩ := gsFloat_no_raise r.gs (by rwa [gsBenign] at hgs)
            rw [hgx]
            exact procAccept_no_raise ext s r a b (ext.hav a b) q x hhex hfl

theorem run_benign (ext : Ext) :
    ∀ (rs : List RawRecord),
      (∀ raw ∈ rs, ∃ r, raw = .obj r ∧ recBenign ext r = true) →
      ∀ s, (runRecords ext s rs).2 = true := by
  intro rs
  induction rs with
  | nil => intro _ s; rfl
  | cons raw rs ih =>
    intro h s
    obtain ⟨r, rfl, hr⟩ := h raw (List.mem_cons_self raw rs)
    rcases hpr : procRecord ext s (.obj r) with ⟨s2, e⟩
    have he : e = none := by
      have := procRecord_benign ext s r hr
      rw [hpr] at this
      exact this
    subst he
    simp only [runRecords, hpr]
    exact ih (fun raw2 h2 => h raw2 (List.mem_cons_of_mem _ h2)) s2

/-! ### Claim theorems -/

/-- C1 (amended): a cycle on which `fetch_aircraft_data` returns failure
leaves the three cumulative series and the current-aircraft table exactly as
they were, and leaves the track store untouched as well whenever the failure
happened before record iteration (a fetch error or a malformed payload
shape).  The original claim — that the track store too is always untouched —
is refuted by `C1_counterexample`: a record-level exception aborts the cycle
after earlier records already appended to `aircraft_tracks`. -/
theorem C1_failed_cycle_preserves_state :
    ∀ (ext : Ext) (keep : ℕ) (st : TrackerState) (inp : FetchInput),
      (fetch_aircraft_data ext keep st inp).2 = false →
      (fetch_aircraft_data ext keep st inp).1.all_distances = st.all_distances ∧
      (fetch_aircraft_data ext keep st inp).1.all_altitudes = st.all_altitudes ∧
      (fetch_aircraft_data ext keep st inp).1.all_groundspeeds = st.all_groundspeeds ∧
      (fetch_aircraft_data ext keep st inp).1.current_aircraft = st.current_aircraft ∧
      ((inp = .fetchError ∨ inp = .malformed) →
        (fetch_aircraft_data ext keep st inp).1.aircraft_tracks = st.aircraft_tracks) := by
  intro ext keep st inp hf
  cases inp with
  | fetchError => exact ⟨rfl, rfl, rfl, rfl, fun _ => rfl⟩
  | malformed => exact ⟨rfl, rfl, rfl, rfl, fun _ => rfl⟩
  | records rs =>
    rcases hr : runRecords ext (initLoop st) rs with ⟨s, b⟩
    rcases b with _ | _
    · refine ⟨by simp [fetch_aircraft_data, hr], by simp [fetch_aircraft_data, hr],
        by simp [fetch_aircraft_data, hr], by simp [fetch_aircraft_data, hr], ?_⟩
      intro hc
      rcases hc with hc | hc <;> cases hc
    · exfalso
      simp only [fetch_aircraft_data, hr] at hf
      cases hf

/-- C1 (counterexample): from the empty state, a snapshot holding one valid
record followed by a record whose latitude is a non-numeric string makes the
cycle fail, yet `aircraft_tracks` has been mutated by the valid record. -/
theorem C1_counterexample :
    (fetch_aircraft_data ext0 0 st0 (.records [.obj goodRec, .obj badLatRec])).2 = false ∧
    (fetch_aircraft_data ext0 0 st0 (.records [.obj goodRec, .obj badLatRec])).1.aircraft_tracks ≠
      st0.aircraft_tracks := by
  constructor
  · decide
  · decide

/-- C1 (witness): the amended theorem applied to a concrete failed fetch. -/
theorem C1_witness :
    (fetch_aircraft_data ext0 0 st0 .fetchError).2 = false ∧
    (fetch_aircraft_data ext0 0 st0 .fetchError).1.all_distances = st0.all_distances := by
  exact ⟨rfl, (C1_failed_cycle_preserves_state ext0 0 st0 .fetchError rfl).1⟩

/-- C3: after any cycle — successful or failed — each cumulative series has
been extended (never truncated or edited) by per-cycle segments of equal
length, one entry per accepted observation at the same index in all three. -/
theorem C3_series_alignment :
    ∀ (ext : Ext) (keep : ℕ) (st : TrackerState) (inp : FetchInput),
      ∃ ds as gss,
        ds.length = as.length ∧ as.length = gss.length ∧
        (fetch_aircraft_data ext keep st inp).1.all_distances = st.all_distances ++ ds ∧
        (fetch_aircraft_data ext keep st inp).1.all_altitudes = st.all_altitudes ++ as ∧
        (fetch_aircraft_data ext keep st inp).1.all_groundspeeds = st.all_groundspeeds ++ gss := by
  intro ext keep st inp
  cases inp with
  | fetchError =>
    exact ⟨[], [], [], rfl, rfl, by simp [fetch_aircraft_data],
      by simp [fetch_aircraft_data], by simp [fetch_aircraft_data]⟩
  | malformed =>
    exact ⟨[], [], [], rfl, rfl, by simp [fetch_aircraft_data],
      by simp [fetch_aircraft_data], by simp [fetch_aircraft_data]⟩
  | records rs =>
    have hl := run_lockstep ext rs (initLoop st) ⟨rfl, rfl, rfl⟩
    rcases hr : runRecords ext (initLoop st) rs with ⟨s, b⟩
    rw [hr] at hl
    rcases b with _ | _
    · exact ⟨[], [], [], rfl, rfl, by simp [fetch_aircraft_data, hr],
        by simp [fetch_aircraft_data, hr], by simp [fetch_aircraft_data, hr]⟩
    · exact ⟨s.new_distances, s.new_altitudes, s.new_groundspeeds, hl.1, hl.2.1,
        by simp [fetch_aircraft_data, hr], by simp [fetch_aircraft_data, hr],
        by simp [fetch_aircraft_data, hr]⟩

/-- C3 (witness): the alignment property instantiated at a concrete cycle. -/
theorem C3_witness :
    ∃ ds as gss,
      ds.length = as.length ∧ as.length = gss.length ∧
      (fetch_aircraft_data ext0 0 st0 (.records [.obj goodRec])).1.all_distances =
        st0.all_distances ++ ds ∧
      (fetch_aircraft_data ext0 0 st0 (.records [.obj goodRec])).1.all_altitudes =
        st0.all_altitudes ++ as ∧
      (fetch_aircraft_data ext0 0 st0 (.records [.obj goodRec])).1.all_groundspeeds =
        st0.all_groundspeeds ++ gss :=
  C3_series_alignment ext0 0 st0 (.records [.obj goodRec])

/-- C4: no track ever exceeds `MAX_TRACK_POINTS` positions (the bound is
preserved by every cycle), and the spec's scenario holds: eleven consecutive
cycles reporting `XYZ` at positions (1,1) … (11,11) leave exactly the last
ten positions, the first having been evicted FIFO. -/
theorem C4_track_bound :
    (∀ (ext : Ext) (keep : ℕ) (st : TrackerState) (inp : FetchInput),
      TracksBounded st.aircraft_tracks →
      TracksBounded (fetch_aircraft_data ext keep st inp).1.aircraft_tracks) ∧
    elevenCycles.aircraft_tracks =
      [(.jstr "XYZ",
        [(2, 2), (3, 3), (4, 4), (5, 5), (6, 6), (7, 7), (8, 8), (9, 9), (10, 10),
         (11, 11)])] := by
  constructor
  · intro ext keep st inp h
    cases inp with
    | fetchError => exact h
    | malformed => exact h
    | records rs =>
      have hb := run_bounded ext rs (initLoop st) h
      rcases hr : runRecords ext (initLoop st) rs with ⟨s, b⟩
      rw [hr] at hb
      rcases b with _ | _
      · simpa [fetch_aircraft_data, hr] using hb
      · simp only [fetch_aircraft_data, hr]
        split
        · intro p hp
          simp only [pruneTracks] at hp
          exact hb p (List.mem_filter.mp hp).1
        · exact hb
  · decide

/-- C4 (witness): the bound applied to a concrete cycle from the empty
state. -/
theorem C4_witness :
    TracksBounded st0.aircraft_tracks ∧
    TracksBounded (fetch_aircraft_data ext0 0 st0 (.records [.obj goodRec])).1.aircraft_tracks := by
  have h0 : TracksBounded st0.aircraft_tracks := by
    intro p hp
    simp [st0] at hp
  exact ⟨h0, C4_track_bound.1 ext0 0 st0 (.records [.obj goodRec]) h0⟩

/-- C2 (amended): within a record-collection snapshot, a record missing
latitude, longitude or altitude, or whose altitude is a non-numeric string,
is silently dropped with the loop state untouched; a record all of whose
consumed fields have exception-free shapes (`recBenign`) is processed
without any escaping exception; and a snapshot consisting only of such
records always yields a successful cycle.  The original claim — that
per-record processing never raises for any malformed record — is refuted by
`C2_counterexample`: a present-but-non-numeric latitude (among other shapes)
raises and aborts the whole cycle. -/
theorem C2_per_record_absorption :
    (∀ (ext : Ext) (s : LoopState) (r : Record),
      dropMissing r = true ∨ (dropMissing r = false ∧ dropBadAlt r = true) →
      procRecord ext s (.obj r) = (s, none)) ∧
    (∀ (ext : Ext) (s : LoopState) (r : Record),
      recBenign ext r = true → (procRecord ext s (.obj r)).2 = none) ∧
    (∀ (ext : Ext) (keep : ℕ) (st : TrackerState) (rs : List RawRecord),
      (∀ raw ∈ rs, ∃ r, raw = .obj r ∧ recBenign ext r = true) →
      (fetch_aircraft_data ext keep st (.records rs)).2 = true) := by
  refine ⟨?_, ?_, ?_⟩
  · intro ext s r h
    rcases h with h | ⟨hm, hb⟩
    · exact procRecord_dropMissing ext s r h
    · exact procRecord_dropBadAlt ext s r hm hb
  · exact fun ext s r h => procRecord_benign ext s r h
  · intro ext keep st rs h
    have hb := run_benign ext rs h (initLoop st)
    rcases hr : runRecords ext (initLoop st) rs with ⟨s, b⟩
    rw [hr] at hb
    rcases b with _ | _
    · cases hb
    · simp [fetch_aircraft_data, hr]

/-- C2 (counterexample): a snapshot whose first record has a string latitude
and whose second record is fully valid does not drop the bad record and
continue — the whole cycle fails, so the claim's "processing of the
remaining records completes normally" is false. -/
theorem C2_counterexample :
    (fetch_aircraft_data ext0 0 st0 (.records [.obj badLatRec, .obj goodRec])).2 = false := by
  decide

/-- C2 (witness): the amended theorem applied to a concrete benign
snapshot. -/
theorem C2_witness :
    (fetch_aircraft_data ext0 0 st0 (.records [.obj goodRec])).2 = true := by
  refine C2_per_record_absorption.2.2 ext0 0 st0 [.obj goodRec] ?_
  intro raw hraw
  rcases List.mem_singleton.mp hraw with rfl
  exact ⟨goodRec, rfl, by decide⟩

/-- C5: under the prune-inactive policy (`KEEP_ALL_TRACKS = 0`), after a
successful cycle every stored track's identity appears in the new
current-aircraft table (identities not observed this cycle were deleted);
under the retain-all policy (`KEEP_ALL_TRACKS = 1`) a stored identity's
track survives any single cycle, and hence any sequence of cycles. -/
theorem C5_retention :
    (∀ (ext : Ext) (st : TrackerState) (inp : FetchInput),
      (fetch_aircraft_data ext 0 st inp).2 = true →
      ∀ k, k ∈ dictKeys (fetch_aircraft_data ext 0 st inp).1.aircraft_tracks →
        k ∈ dictKeys (fetch_aircraft_data ext 0 st inp).1.current_aircraft) ∧
    (∀ (ext : Ext) (st : TrackerState) (inp : FetchInput) (k : JVal),
      k ∈ dictKeys st.aircraft_tracks →
      k ∈ dictKeys (fetch_aircraft_data ext 1 st inp).1.aircraft_tracks) ∧
    (∀ (ext : Ext) (inps : List FetchInput) (st : TrackerState) (k : JVal),
      k ∈ dictKeys st.aircraft_tracks →
      k ∈ dictKeys
        (inps.foldl (fun st inp => (fetch_aircraft_data ext 1 st inp).1) st).aircraft_tracks) := by
  have hone : ∀ (ext : Ext) (st : TrackerState) (inp : FetchInput) (k : JVal),
      k ∈ dictKeys st.aircraft_tracks →
      k ∈ dictKeys (fetch_aircraft_data ext 1 st inp).1.aircraft_tracks := by
    intro ext st inp k hk
    cases inp with
    | fetchError => exact hk
    | malformed => exact hk
    | records rs =>
      have hg := run_track_keys ext rs (initLoop st) k hk
      rcases hr : runRecords ext (initLoop st) rs with ⟨s, b⟩
      rw [hr] at hg
      rcases b with _ | _ <;> simpa [fetch_aircraft_data, hr] using hg
  refine ⟨?_, hone, ?_⟩
  · intro ext st inp hok k hk
    cases inp with
    | fetchError => cases hok
    | malformed => cases hok
    | records rs =>
      rcases hr : runRecords ext (initLoop st) rs with ⟨s, b⟩
      rcases b with _ | _
      · simp only [fetch_aircraft_data, hr] at hok
        cases hok
      · have hct := run_codes_temp ext rs (initLoop st) (by rw [hr]) ?hinit
        case hinit =>
          intro x
          simp [initLoop, dictKeys]
        rw [hr] at hct
        simp only [fetch_aircraft_data, hr] at hk ⊢
        norm_num at hk
        simp only [pruneTracks, dictKeys] at hk
        rcases List.mem_map.mp hk with ⟨p, hp, rfl⟩
        have hpf := List.mem_filter.mp hp
        have hcodes : p.1 ∈ s.current_hex_codes := by simpa using hpf.2
        exact (hct p.1).mp hcodes
  · intro ext inps
    induction inps with
    | nil => exact fun st k hk => hk
    | cons inp inps ih =>
      intro st k hk
      exact ih (fetch_aircraft_data ext 1 st inp).1 k (hone ext st inp k hk)

/-- C5 (witness): retention applied to a concrete stored track. -/
theorem C5_witness :
    (JVal.jstr "K") ∈ dictKeys stK.aircraft_tracks ∧
    (JVal.jstr "K") ∈ dictKeys (fetch_aircraft_data ext0 1 stK .fetchError).1.aircraft_tracks := by
  have h0 : (JVal.jstr "K") ∈ dictKeys stK.aircraft_tracks := by decide
  exact ⟨h0, C5_retention.2.1 ext0 stK .fetchError (.jstr "K") h0⟩

/-- C6: after a successful cycle the current-aircraft table is a wholesale
replacement — its value is independent of the previous table, its keys are
unique and all come from identities assigned this cycle — and when one
snapshot carries the same identity twice, the later record's data wins (in
the concrete duplicate-identity snapshot the table has a single entry whose
altitude is the second record's). -/
theorem C6_table_replaced :
    (∀ (ext : Ext) (keep : ℕ) (st : TrackerState) (X : List (JVal × AcEntry))
      (inp : FetchInput),
      (fetch_aircraft_data ext keep st inp).2 = true →
      (fetch_aircraft_data ext keep { st with current_aircraft := X } inp).1.current_aircraft =
        (fetch_aircraft_data ext keep st inp).1.current_aircraft) ∧
    (∀ (ext : Ext) (keep : ℕ) (st : TrackerState) (inp : FetchInput),
      (fetch_aircraft_data ext keep st inp).2 = true →
      (dictKeys (fetch_aircraft_data ext keep st inp).1.current_aircraft).Nodup) ∧
    (∀ (ext : Ext) (keep : ℕ) (st : TrackerState) (rs : List RawRecord),
      (fetch_aircraft_data ext keep st (.records rs)).2 = true →
      ∀ k, k ∈ dictKeys (fetch_aircraft_data ext keep st (.records rs)).1.current_aircraft →
        k ∈ (runRecords ext (initLoop st) rs).1.keys_log.map (fun e => e.1)) ∧
    ((fetch_aircraft_data ext0 0 st0
        (.records [.obj (hRec 1 100), .obj (hRec 1 200)])).1.current_aircraft.length = 1 ∧
      ((dictGet? (fetch_aircraft_data ext0 0 st0
          (.records [.obj (hRec 1 100), .obj (hRec 1 200)])).1.current_aircraft
        (.jstr "H")).map (fun en => en.alt)) = some 200) := by
  refine ⟨?_, ?_, ?_, by decide, by decide⟩
  · intro ext keep st X inp hok
    cases inp with
    | fetchError => cases hok
    | malformed => cases hok
    | records rs =>
      rcases hr : runRecords ext (initLoop st) rs with ⟨s, b⟩
      have hr2 : runRecords ext (initLoop { st with current_aircraft := X }) rs = (s, b) := hr
      rcases b with _ | _
      · simp only [fetch_aircraft_data, hr] at hok
        cases hok
      · simp [fetch_aircraft_data, hr, hr2]
  · intro ext keep st inp hok
    cases inp with
    | fetchError => cases hok
    | malformed => cases hok
    | records rs =>
      have hn := run_temp_nodup ext rs (initLoop st) (by simp [initLoop, dictKeys])
      rcases hr : runRecords ext (initLoop st) rs with ⟨s, b⟩
      rw [hr] at hn
      rcases b with _ | _
      · simp only [fetch_aircraft_data, hr] at hok
        cases hok
      · simpa [fetch_aircraft_data, hr] using hn
  · intro ext keep st rs hok k hk
    have hs := run_temp_sub_log ext rs (initLoop st) (by simp [initLoop, dictKeys])
    rcases hr : runRecords ext (initLoop st) rs with ⟨s, b⟩
    rw [hr] at hs
    rcases b with _ | _
    · simp only [fetch_aircraft_data, hr] at hok
      cases hok
    · simp only [fetch_aircraft_data, hr] at hk
      exact hs k hk

/-- C6 (witness): wholesale replacement applied to a concrete prior table. -/
theorem C6_witness :
    (fetch_aircraft_data ext0 0
        { st0 with
          current_aircraft :=
            [(.jstr "Z", { lat := 0, lon := 0, alt := 0, flight := "", gs := .jnull })] }
        (.records [])).1.current_aircraft =
      (fetch_aircraft_data ext0 0 st0 (.records [])).1.current_aircraft := by
  exact C6_table_replaced.1 ext0 0 st0
    [(.jstr "Z", { lat := 0, lon := 0, alt := 0, flight := "", gs := .jnull })]
    (.records []) (by decide)

/-- C7: an absent, `null`, `'N/A'` or non-parsable-string groundspeed is
recorded as the explicit unknown marker `none` (never the number `0`); any
entry appended to the cumulative groundspeed series is exactly the value the
gs extraction produced; and both groundspeed plot filters exclude unknown
entries, so an unknown is never plotted as any number. -/
theorem C7_gs_unknown :
    gsFloat none = .ok none ∧
    gsFloat (some .jnull) = .ok none ∧
    gsFloat (some (.jstr "N/A")) = .ok none ∧
    (∀ str, pyParseFloat? str = none → gsFloat (some (.jstr str)) = .ok none) ∧
    (∀ q : ℚ, (none : Option ℚ) ≠ some q) ∧
    (∀ (ext : Ext) (s : LoopState) (raw : RawRecord) (x : Option ℚ),
      (procRecord ext s raw).1.new_groundspeeds = s.new_groundspeeds ++ [x] →
      ∃ ac, raw = .obj ac ∧ gsFloat ac.gs = .ok x) ∧
    (∀ (gss : List (Option ℚ)) (alts : List ℚ) (p : Option ℚ × ℚ),
      p ∈ scatter_gs_valid_data gss alts → p.1.isSome = true) ∧
    (∀ (gss : List (Option ℚ)) (g : Option ℚ), g ∈ hist_gs_valid gss → g.isSome = true) := by
  refine ⟨rfl, rfl, rfl, ?_, ?_, ?_, ?_, ?_⟩
  · intro str h
    by_cases hs : (JVal.jstr str : JVal) = .jstr "N/A"
    · simp [gsFloat, jGet, hs]
    · simp [gsFloat, jGet, hs, pyFloat, h]
  · intro q h
    cases h
  · intro ext s raw x h
    rcases hpr : procRecord ext s raw with ⟨s2, e⟩
    rw [hpr] at h
    rcases procRecord_shape ext s raw s2 e hpr with rfl |
      ⟨ac, d, a, g, k, b, hraw, hgs, _, _, _, hng, _, _, _⟩
    · exfalso
      have hlen := congrArg List.length h
      simp at hlen
    · refine ⟨ac, hraw, ?_⟩
      have hx : g = x := by
        have := hng.symm.trans h
        have h2 := List.append_cancel_left this
        simpa using h2
      rw [hx] at hgs
      exact hgs
  · intro gss alts p hp
    have := List.mem_filter.mp hp
    simpa using this.2
  · intro gss g hg
    have := List.mem_filter.mp hg
    simpa using this.2

/-- C7 (witness): the unknown marker produced on a concrete non-numeric
groundspeed string. -/
theorem C7_witness : gsFloat (some (.jstr "abc")) = .ok none :=
  C7_gs_unknown.2.2.2.1 "abc" (by decide)

/-- C8 (amended): a successful cycle returns only the boolean `True` — the
returned value carries no count (refuted as originally stated by
`C8_counterexample`) — while the number of observations accepted in the
cycle, the length of the instrumentation log, equals the number of entries
appended to each of the three cumulative series. -/
theorem C8_success_flag_and_count :
    ∀ (ext : Ext) (keep : ℕ) (st : TrackerState) (rs : List RawRecord),
      (fetch_aircraft_data ext keep st (.records rs)).2 = true →
      (fetch_aircraft_data ext keep st (.records rs)).1.all_distances.length =
          st.all_distances.length + (runRecords ext (initLoop st) rs).1.keys_log.length ∧
        (fetch_aircraft_data ext keep st (.records rs)).1.all_altitudes.length =
          st.all_altitudes.length + (runRecords ext (initLoop st) rs).1.keys_log.length ∧
        (fetch_aircraft_data ext keep st (.records rs)).1.all_groundspeeds.length =
          st.all_groundspeeds.length + (runRecords ext (initLoop st) rs).1.keys_log.length := by
  intro ext keep st rs hok
  have hl := run_lockstep ext rs (initLoop st) ⟨rfl, rfl, rfl⟩
  rcases hr : runRecords ext (initLoop st) rs with ⟨s, b⟩
  rw [hr] at hl
  obtain ⟨hl1, hl2, hl3⟩ := hl
  rcases b with _ | _
  · simp only [fetch_aircraft_data, hr] at hok
    cases hok
  · have h1 : s.new_distances.length = s.new_altitudes.length := hl1
    have h2 : s.new_altitudes.length = s.new_groundspeeds.length := hl2
    have h3 : s.new_distances.length = s.keys_log.length := hl3
    refine ⟨?_, ?_, ?_⟩ <;>
      simp only [fetch_aircraft_data, hr, List.length_append] <;> omega

/-- C8 (counterexample): the value returned by a successful cycle does not
determine the number of accepted observations — two successful cycles with
0 and 1 accepted observations return the same value — so no count is
carried in the result. -/
theorem C8_counterexample :
    ¬ ∃ f : Bool → ℕ,
      ∀ (st : TrackerState) (inp : FetchInput),
        (fetch_aircraft_data ext0 0 st inp).2 = true →
        (fetch_aircraft_data ext0 0 st inp).1.all_distances.length =
          st.all_distances.length + f (fetch_aircraft_data ext0 0 st inp).2 := by
  rintro ⟨f, hf⟩
  have h0 := hf st0 (.records []) (by decide)
  have h1 := hf st0 (.records [.obj goodRec]) (by decide)
  have e0 : (fetch_aircraft_data ext0 0 st0 (.records [])).1.all_distances.length = 0 := by
    decide
  have e1 :
      (fetch_aircraft_data ext0 0 st0 (.records [.obj goodRec])).1.all_distances.length = 1 := by
    decide
  have b0 : (fetch_aircraft_data ext0 0 st0 (.records [])).2 = true := by decide
  have b1 : (fetch_aircraft_data ext0 0 st0 (.records [.obj goodRec])).2 = true := by decide
  rw [e0, b0] at h0
  rw [e1, b1] at h1
  have hs : st0.all_distances.length = 0 := by decide
  rw [hs] at h0 h1
  omega

/-- C8 (witness): the amended count equality at a concrete successful
cycle. -/
theorem C8_witness :
    (fetch_aircraft_data ext0 0 st0 (.records [.obj goodRec])).1.all_distances.length =
      st0.all_distances.length +
        (runRecords ext0 (initLoop st0) [.obj goodRec]).1.keys_log.length :=
  (C8_success_flag_and_count ext0 0 st0 [.obj goodRec] (by decide)).1

/-- C9 (amended): a synthesized identity is the string of the wall-clock
reading consumed by that record; the clock cursor advances by at most one
per record and never goes back, so whenever the clock readings in the
consumed range are pairwise distinct the synthetic keys of the cycle are
pairwise distinct — but the code itself guarantees no uniqueness: with a
clock whose consecutive readings coincide, distinct records receive the
same synthetic key (refuted as originally stated by `C9_counterexample`). -/
theorem C9_synth_unique_when_clock_distinct :
    ∀ (ext : Ext) (st : TrackerState) (rs : List RawRecord),
      (∀ i j, i < j → j < st.tick + rs.length → ext.clockStr i ≠ ext.clockStr j) →
      (synthKeys (runRecords ext (initLoop st) rs).1).Nodup ∧
      st.tick ≤ (runRecords ext (initLoop st) rs).1.tick ∧
      (runRecords ext (initLoop st) rs).1.tick ≤ st.tick + rs.length := by
  intro ext st rs hdist
  have hinv := run_keysInv ext rs (initLoop st)
    ⟨List.Pairwise.nil, fun e he => absurd he (List.not_mem_nil e)⟩
  have hle := run_tick_le ext rs (initLoop st)
  have hge := run_tick_ge ext rs (initLoop st)
  exact ⟨synthKeys_nodup_of ext _ (st.tick + rs.length) hinv hle hdist, hge, hle⟩

/-- C9 (counterexample): with a wall clock whose readings coincide (as
happens within the clock's resolution), two hex-less records in one
successful snapshot are assigned the same synthetic key — uniqueness is not
guaranteed. -/
theorem C9_counterexample :
    (runRecords ext0 (initLoop st0) [.obj (hexlessRec 1), .obj (hexlessRec 2)]).2 = true ∧
    synthKeys (runRecords ext0 (initLoop st0) [.obj (hexlessRec 1), .obj (hexlessRec 2)]).1 =
      [.jstr "T", .jstr "T"] ∧
    ¬ (synthKeys (runRecords ext0 (initLoop st0)
        [.obj (hexlessRec 1), .obj (hexlessRec 2)]).1).Nodup := by
  exact ⟨by decide, by decide, by decide⟩

/-- C9 (witness): distinct synthetic keys under a clock whose first two
readings differ. -/
theorem C9_witness :
    (synthKeys (runRecords extD (initLoop st0)
      [.obj (hexlessRec 1), .obj (hexlessRec 2)]).1).Nodup := by
  refine (C9_synth_unique_when_clock_distinct extD st0
    [.obj (hexlessRec 1), .obj (hexlessRec 2)] ?_).1
  intro i j hij hj
  have hi0 : i = 0 := by simp [st0] at hj; omega
  have hj1 : j = 1 := by simp [st0] at hj; omega
  subst hi0; subst hj1
  decide

/-- C10: in a successful cycle the current-aircraft table never has more
entries than the cycle accepted records (one series entry and one track
append per record, but one table entry per identity), and in the concrete
duplicate-identity snapshot the single identity's track gains two points and
the series two entries while the table holds one entry. -/
theorem C10_duplicate_identity :
    (∀ (ext : Ext) (keep : ℕ) (st : TrackerState) (rs : List RawRecord),
      (fetch_aircraft_data ext keep st (.records rs)).2 = true →
      (fetch_aircraft_data ext keep st (.records rs)).1.current_aircraft.length ≤
          (runRecords ext (initLoop st) rs).1.keys_log.length ∧
        (runRecords ext (initLoop st) rs).1.new_distances.length =
          (runRecords ext (initLoop st) rs).1.keys_log.length) ∧
    ((fetch_aircraft_data ext0 0 st0
        (.records [.obj (hRec 1 100), .obj (hRec 2 200)])).1.aircraft_tracks =
        [(.jstr "H", [(1, 1), (2, 2)])] ∧
      (fetch_aircraft_data ext0 0 st0
        (.records [.obj (hRec 1 100), .obj (hRec 2 200)])).1.current_aircraft.length = 1 ∧
      (fetch_aircraft_data ext0 0 st0
        (.records [.obj (hRec 1 100), .obj (hRec 2 200)])).1.all_distances.length = 2) := by
  refine ⟨?_, by decide, by decide, by decide⟩
  intro ext keep st rs hok
  have hle := run_temp_le_log ext rs (initLoop st) (by simp [initLoop])
  have hl := run_lockstep ext rs (initLoop st) ⟨rfl, rfl, rfl⟩
  rcases hr : runRecords ext (initLoop st) rs with ⟨s, b⟩
  rw [hr] at hle hl
  rcases b with _ | _
  · simp only [fetch_aircraft_data, hr] at hok
    cases hok
  · refine ⟨?_, hl.2.2⟩
    simpa [fetch_aircraft_data, hr] using hle

/-- C10 (witness): the general bound at a concrete duplicate-identity
cycle. -/
theorem C10_witness :
    (fetch_aircraft_data ext0 0 st0
        (.records [.obj (hRec 1 100), .obj (hRec 1 200)])).1.current_aircraft.length ≤
      (runRecords ext0 (initLoop st0)
        [.obj (hRec 1 100), .obj (hRec 1 200)]).1.keys_log.length :=
  (C10_duplicate_identity.1 ext0 0 st0 [.obj (hRec 1 100), .obj (hRec 1 200)] (by decide)).1

end ADSB
